import Mathlib

/-!
Shallow embedding of the reward / renewal coordination logic of the
powergym-front repository.

Conventions used throughout:
* JavaScript numbers are embedded as exact rationals `ℚ`; a JS number that
  may be `NaN` is embedded as `Option ℚ` with `none` standing for `NaN`
  (all comparisons with `NaN` are false, `isNaN` detects `none`).
* `Date` values are millisecond timestamps `ℤ`; parsing an ISO string with
  `new Date(s)` is an external routine, embedded as a parameter
  `parse : String → Option ℤ` (`none` = Invalid Date, whose comparisons
  are all false, like `NaN`).
* `parseFloat` is likewise a parameter `pf : String → Option ℚ`
  (`none` = `NaN`).
* Optional / nullable TS values become `Option`.
-/

namespace PowerGym

/-- JS comparison `a <= b` on possibly-NaN date/number values:
false as soon as one side is `NaN`. -/
def jsLe : Option ℤ → Option ℤ → Bool
  | some a, some b => a ≤ b
  | _, _ => false

/-- JS comparison `a < b` on possibly-NaN values. -/
def jsLt : Option ℤ → Option ℤ → Bool
  | some a, some b => a < b
  | _, _ => false

/-- A JS value that is either a number (possibly NaN) or a string, the type
`number | string` used for `discount_percentage` fields. -/
inductive JSNumStr where
  | num (v : Option ℚ)
  | str (s : String)
deriving DecidableEq, Repr

/-- Reward status from `src/features/rewards/types`: `'pending' | 'applied' | 'expired'`. -/
inductive RewardStatus where
  | pending
  | applied
  | expired
deriving DecidableEq, Repr

/-- The fields of a `Reward` record used by the embedded code. -/
structure Reward where
  id : String
  status : RewardStatus
  expires_at : Option String
  discount_percentage : JSNumStr
deriving DecidableEq, Repr

/-- Constant `ELIGIBLE_PLAN_UNITS = ['month']` from `rewardConstants.ts`. -/
def ELIGIBLE_PLAN_UNITS : List String := ["month"]

/-- Constant `REWARD_RULES.ATTENDANCE_THRESHOLD = 20` from `rewardConstants.ts`. -/
def REWARD_RULES_ATTENDANCE_THRESHOLD : ℚ := 20

/-- Structure `RewardConfig` from `rewardsApi.ts` (fields used by the helpers). -/
structure RewardConfig where
  attendance_threshold : ℚ
  discount_percentage : ℚ
  expiration_days : ℚ
  eligible_plan_units : List String
deriving DecidableEq, Repr

/-- Function `isRewardExpired` of `rewardHelpers.ts`: no `expires_at` → not expired;
otherwise `new Date(expires_at) < new Date()` (`now` is the current
timestamp, `parse` the Date parser). -/
def isRewardExpired (parse : String → Option ℤ) (now : ℤ) (reward : Reward) : Bool :=
  match reward.expires_at with
  | none => false
  | some s => jsLt (parse s) (some now)

/-- Function `isRewardAvailable` of `rewardHelpers.ts`: pending and not expired. -/
def isRewardAvailable (parse : String → Option ℤ) (now : ℤ) (reward : Reward) : Bool :=
  reward.status == RewardStatus.pending && !isRewardExpired parse now reward

/-- Function `filterAvailableRewards` of `rewardHelpers.ts`. -/
def filterAvailableRewards (parse : String → Option ℤ) (now : ℤ) (rewards : List Reward) : List Reward :=
  rewards.filter (isRewardAvailable parse now)

/-- Function `toNumber` of `rewardHelpers.ts`: numbers pass through with `NaN → 0`;
strings go through `parseFloat` (`pf`) with `NaN → 0`. -/
def toNumber (pf : String → Option ℚ) : JSNumStr → ℚ
  | JSNumStr.num v =>
    match v with
    | some x => x
    | none => 0
  | JSNumStr.str s =>
    match pf s with
    | some parsed => parsed
    | none => 0

/-- Function `calculateDiscountedPrice` of `rewardHelpers.ts`:
`originalPrice * (1 - discount / 100)`. -/
def calculateDiscountedPrice (pf : String → Option ℚ) (originalPrice : ℚ)
    (discountPercentage : JSNumStr) : ℚ :=
  let discount := toNumber pf discountPercentage
  originalPrice * (1 - discount / 100)

/-- Function `calculateDiscountAmount` of `rewardHelpers.ts`:
`originalPrice - calculateDiscountedPrice(originalPrice, discount)` where
`discount` is the already-converted number. -/
def calculateDiscountAmount (pf : String → Option ℚ) (originalPrice : ℚ)
    (discountPercentage : JSNumStr) : ℚ :=
  let discount := toNumber pf discountPercentage
  originalPrice - calculateDiscountedPrice pf originalPrice (JSNumStr.num (some discount))

/-- Function `isPlanEligibleForRewards` of `rewardHelpers.ts`:
`(config?.eligible_plan_units ?? ELIGIBLE_PLAN_UNITS).includes(planDurationUnit)`. -/
def isPlanEligibleForRewards (planDurationUnit : String)
    (config : Option RewardConfig) : Bool :=
  let eligibleUnits :=
    match config with
    | some c => c.eligible_plan_units
    | none => ELIGIBLE_PLAN_UNITS
  eligibleUnits.contains planDurationUnit

/-- An attendance record: `{ check_in: string }` (ISO timestamp). -/
structure AttendanceRecord where
  check_in : String
deriving DecidableEq, Repr

/-- The per-record predicate of `calculateCycleAttendances`:
`checkIn >= start && checkIn <= end` on parsed dates. -/
def inCycleAttendance (parse : String → Option ℤ) (startDate endDate : String)
    (att : AttendanceRecord) : Bool :=
  jsLe (parse startDate) (parse att.check_in) && jsLe (parse att.check_in) (parse endDate)

/-- Function `calculateCycleAttendances` of `rewardHelpers.ts`: 0 on an empty list, else
the number of records whose `check_in` satisfies
`checkIn >= start && checkIn <= end`. -/
def calculateCycleAttendances (parse : String → Option ℤ)
    (attendances : List AttendanceRecord) (startDate endDate : String) : ℕ :=
  if attendances.isEmpty then 0
  else (attendances.filter (inCycleAttendance parse startDate endDate)).length

/-- The plan slice `{ duration_unit?: string }` inside `SubscriptionInfo`. -/
structure PlanInfo where
  duration_unit : Option String
deriving DecidableEq, Repr

/-- Interface `SubscriptionInfo` of `rewardHelpers.ts`. -/
structure SubscriptionInfo where
  start_date : String
  end_date : String
  plan : Option PlanInfo
deriving DecidableEq, Repr

/-- Function `canCalculateRewardForRenewal` of `rewardHelpers.ts`: requires a present
subscription whose plan unit is truthy and reward-eligible, and an
attendance count at or above the threshold. -/
def canCalculateRewardForRenewal (subscription : Option SubscriptionInfo)
    (attendanceCount : ℚ) (config : Option RewardConfig) : Bool :=
  match subscription with
  | none => false
  | some sub =>
    let threshold :=
      match config with
      | some c => c.attendance_threshold
      | none => REWARD_RULES_ATTENDANCE_THRESHOLD
    let isEligiblePlan :=
      match sub.plan with
      | some p =>
        match p.duration_unit with
        | some u => if u == "" then false else isPlanEligibleForRewards u config
        | none => false
      | none => false
    isEligiblePlan && decide (threshold ≤ attendanceCount)

/-- The active-subscription slice used by `RewardProgress`. -/
structure ActiveSubscriptionInfo where
  id : String
  start_date : String
  end_date : String
  plan_id : String
deriving DecidableEq, Repr

/-- The plan slice `{ duration_unit: string }` used by `RewardProgress`. -/
structure SubscriptionPlanInfo where
  duration_unit : String
deriving DecidableEq, Repr

/-- The record computed by the `progress` memo of `RewardProgress`. -/
structure ProgressInfo where
  cycleAttendances : ℕ
  threshold : ℚ
  progressPercentage : ℚ
  remaining : ℚ
  isComplete : Bool
  discountPercentage : ℚ
deriving DecidableEq, Repr

/-- The `progress` memo of the `RewardProgress` component: `null` when data
is missing, attendances are empty, or the plan is not reward-eligible;
otherwise the cycle count, threshold, capped percentage, remaining count
and completion flag. -/
def rewardProgress (parse : String → Option ℤ)
    (activeSubscription : Option ActiveSubscriptionInfo)
    (subscriptionPlan : Option SubscriptionPlanInfo)
    (attendances : List AttendanceRecord)
    (config : RewardConfig) : Option ProgressInfo :=
  match activeSubscription, subscriptionPlan with
  | some sub, some plan =>
    if attendances.isEmpty then none
    else if !isPlanEligibleForRewards plan.duration_unit (some config) then none
    else
      let cycleAttendances :=
        calculateCycleAttendances parse attendances sub.start_date sub.end_date
      let threshold := config.attendance_threshold
      some
        { cycleAttendances := cycleAttendances
          threshold := threshold
          progressPercentage := min (((cycleAttendances : ℚ) / threshold) * 100) 100
          remaining := max 0 (threshold - (cycleAttendances : ℚ))
          isComplete := decide (threshold ≤ (cycleAttendances : ℚ))
          discountPercentage := config.discount_percentage }
  | _, _ => none

/-- Type `RewardEligibilityResponse`: the payload returned by the local
eligibility calculation (`eligible`, `attendance_count`). -/
structure RewardEligibilityResponse where
  eligible : Bool
  attendance_count : ℤ
deriving DecidableEq, Repr

/-- The discriminated union produced by the `rewardStatus` memo of the
`RewardCalculationStatus` component (UI message strings elided; the
carried data is kept). -/
inductive RewardStatusView where
  | loading
  | fetchError
  | calculated (reward : Reward)
  | applied
  | notEligible (attendanceCount : ℤ)
  | notCalculated
deriving DecidableEq, Repr

/-- The `rewardStatus` memo of `RewardCalculationStatus`
(`RenewSubscriptionModal.tsx` lines 46–79): loading / error first, then the
first available (pending, unexpired) reward wins, then any applied reward,
then a stored `eligible=false` local calculation, else not-calculated. -/
def rewardStatusView (parse : String → Option ℤ) (now : ℤ)
    (isLoading errorFlag : Bool) (rewards : Option (List Reward))
    (lastCalculationResult : Option RewardEligibilityResponse) : RewardStatusView :=
  if isLoading then RewardStatusView.loading
  else if errorFlag then RewardStatusView.fetchError
  else
    let availableRewards :=
      match rewards with
      | some rs => filterAvailableRewards parse now rs
      | none => []
    let appliedRewards : List Reward :=
      match rewards with
      | some rs => rs.filter (fun r => r.status == RewardStatus.applied)
      | none => []
    match availableRewards with
    | reward :: _ => RewardStatusView.calculated reward
    | [] =>
      if appliedRewards.length > 0 then RewardStatusView.applied
      else
        match lastCalculationResult with
        | some res =>
          if !res.eligible then RewardStatusView.notEligible res.attendance_count
          else RewardStatusView.notCalculated
        | none => RewardStatusView.notCalculated

/-- Enum `SubscriptionStatus` from the subscriptions API types. -/
inductive SubscriptionStatus where
  | active
  | expired
  | pending_payment
  | canceled
  | scheduled
deriving DecidableEq, Repr

/-- The `Subscription` fields used by the renewal modal. -/
structure Subscription where
  id : String
  client_id : String
  status : SubscriptionStatus
  start_date : String
  end_date : String
  final_price : Option ℚ
deriving DecidableEq, Repr

/-- The record returned by `canRenewByDaysRemaining` and by the
`renewalCheck` memo. -/
structure RenewalCheck where
  canRenew : Bool
  daysRemaining : ℤ
  message : Option String
deriving DecidableEq, Repr

/-- The `renewalCheck` memo of `RenewSubscriptionModal` (lines 266–277):
no subscription → not renewable; `expired` → always renewable; `active` →
delegate to the external days-remaining policy `canRenewByDaysRemaining`;
any other status → not renewable. -/
def renewalCheck (canRenewByDaysRemaining : Subscription → RenewalCheck)
    (subscription : Option Subscription) : RenewalCheck :=
  match subscription with
  | none => { canRenew := false, daysRemaining := 0, message := none }
  | some s =>
    if s.status == SubscriptionStatus.expired then
      { canRenew := true, daysRemaining := 0, message := none }
    else if s.status == SubscriptionStatus.active then
      canRenewByDaysRemaining s
    else
      { canRenew := false, daysRemaining := 0, message := none }

/-- The `disabled` prop of the confirm button (line 440):
`isSubmitting || isLoading || !renewalCheck.canRenew`. -/
def confirmDisabled (isSubmitting isLoading : Bool) (check : RenewalCheck) : Bool :=
  isSubmitting || isLoading || !check.canRenew

/-- Local state of `RenewSubscriptionModal` relevant to the confirm flow
(`isOpen` mirrors the parent-held open flag cleared via `onClose`). -/
structure ModalState where
  isSubmitting : Bool
  error : Option String
  selectedReward : Option Reward
  isOpen : Bool
deriving DecidableEq, Repr

/-- Externally observable calls made by the confirm flow. -/
inductive Event where
  | renewCall (discount : Option ℚ)
  | applyRewardCall (rewardId : String) (subscriptionId : String) (discount : ℚ)
  | logError (message : String)
deriving DecidableEq, Repr

/-- The discount resolution at the top of `handleConfirm`: strings go
through `parseFloat`, NaN becomes `undefined`. -/
def resolveDiscount (pf : String → Option ℚ) (selectedReward : Option Reward) : Option ℚ :=
  match selectedReward with
  | none => none
  | some r =>
    match r.discount_percentage with
    | JSNumStr.num v => v
    | JSNumStr.str s => pf s

/-- JS truthiness of the `string | undefined` subscription id:
`undefined` and the empty string are falsy. -/
def truthyId : Option String → Bool
  | some s => !(s == "")
  | none => false

/-- Function `handleClose` (lines 341–346): clear the error, the submitting flag and
the selected reward, then `onClose()`. -/
def handleClose (st : ModalState) : ModalState :=
  { st with error := none, isSubmitting := false, selectedReward := none, isOpen := false }

/-- The warning set when the renewal succeeded but marking the reward as
applied failed (line 329). -/
def renewedButRewardWarning : String :=
  "La suscripción se renovó pero hubo un problema al marcar la recompensa como aplicada"

/-- Function `handleConfirm` (lines 297–339) as a state/trace transformer. The two
external calls are given by their outcomes: `renewResult` is what
`onConfirm` does (throws, or resolves to `string | undefined`), and
`applyResult` is what `applyRewardMutation.mutateAsync` does. The returned
list records the calls issued, in order. -/
def handleConfirm (pf : String → Option ℚ)
    (renewResult : Except String (Option String)) (applyResult : Except String Unit)
    (subscription : Option Subscription) (st : ModalState) : ModalState × List Event :=
  match subscription with
  | none => (st, [])
  | some _ =>
    let st1 : ModalState := { st with error := none, isSubmitting := true }
    let discountPercentage := resolveDiscount pf st1.selectedReward
    match renewResult with
    | Except.error msg =>
      ({ st1 with error := some msg, isSubmitting := false },
       [Event.renewCall discountPercentage])
    | Except.ok newSubscriptionId =>
      if st1.selectedReward.isSome && truthyId newSubscriptionId
          && discountPercentage.isSome then
        let rid := (st1.selectedReward.map Reward.id).getD ""
        let sid := newSubscriptionId.getD ""
        let dp := discountPercentage.getD 0
        match applyResult with
        | Except.ok _ =>
          (handleClose st1,
           [Event.renewCall discountPercentage, Event.applyRewardCall rid sid dp])
        | Except.error emsg =>
          (handleClose { st1 with error := some renewedButRewardWarning },
           [Event.renewCall discountPercentage, Event.applyRewardCall rid sid dp,
            Event.logError emsg])
      else
        (handleClose st1, [Event.renewCall discountPercentage])

/-- Clicking the confirm button: a disabled button does not invoke its
`onClick` handler, otherwise `handleConfirm` runs. -/
def clickConfirm (pf : String → Option ℚ)
    (renewResult : Except String (Option String)) (applyResult : Except String Unit)
    (isLoading : Bool) (check : RenewalCheck)
    (subscription : Option Subscription) (st : ModalState) : ModalState × List Event :=
  if confirmDisabled st.isSubmitting isLoading check then (st, [])
  else handleConfirm pf renewResult applyResult subscription st

/-! ### Cache synchronization (useSubscriptions.ts, query keys from api/types) -/

/-- Key factory `subscriptionKeys.all()`. -/
def subscriptionKeysAll : List String := ["subscriptions"]

/-- Key factory `subscriptionKeys.lists()`. -/
def subscriptionKeysLists : List String := subscriptionKeysAll ++ ["list"]

/-- Key factory `subscriptionKeys.list(clientId)`. -/
def subscriptionKeysList (clientId : String) : List String :=
  subscriptionKeysLists ++ [clientId]

/-- Key factory `subscriptionKeys.details()`. -/
def subscriptionKeysDetails : List String := subscriptionKeysAll ++ ["detail"]

/-- Key factory `subscriptionKeys.detail(id)`. -/
def subscriptionKeysDetail (id : String) : List String :=
  subscriptionKeysDetails ++ [id]

/-- Key factory `subscriptionKeys.active(clientId)`. -/
def subscriptionKeysActive (clientId : String) : List String :=
  subscriptionKeysList clientId ++ ["active"]

/-- The inline `['paymentStats', subscriptionId]` key used by
`useCancelSubscription`. -/
def paymentStatsKey (subscriptionId : String) : List String :=
  ["paymentStats", subscriptionId]

/-- A cached value: a single subscription, a subscription list, or data of
some other query. -/
inductive CacheData where
  | sub (s : Subscription)
  | subList (l : List Subscription)
  | other
deriving DecidableEq, Repr

/-- One cache slot: its data (if any) and its invalidation mark. -/
structure CacheEntry where
  data : Option CacheData
  invalidated : Bool
deriving DecidableEq, Repr

/-- The query cache, keyed by query keys. -/
def Cache : Type := List String → CacheEntry

/-- Operation `queryClient.setQueryData(key, updater)`: rewrite the data of exactly
that key. -/
def setQueryData (key : List String) (updater : Option CacheData → Option CacheData)
    (c : Cache) : Cache :=
  fun q => if q = key then { c q with data := updater (c q).data } else c q

/-- Operation `queryClient.invalidateQueries` on a query key: react-query marks every
query whose key extends the given key (prefix match) as invalidated. -/
def invalidateQueries (key : List String) (c : Cache) : Cache :=
  fun q => if key.isPrefixOf q then { c q with invalidated := true } else c q

/-- The list updater of `useCancelSubscription`:
`(old = []) => old.map(s => s.id === subscriptionId ? data : s)`; an absent
slot defaults to `[]` (a non-list slot never occurs at a list key). -/
def cancelListUpdater (subscriptionId : String) (data : Subscription) :
    Option CacheData → Option CacheData
  | some (CacheData.subList old) =>
    some (CacheData.subList (old.map fun s => if s.id == subscriptionId then data else s))
  | _ => some (CacheData.subList [])

/-- The `onSuccess` handler of `useCancelSubscription`
(useSubscriptions.ts lines 149–193), in source order: set the detail
entry, invalidate the client list, invalidate the client's active slot,
optimistically replace the record in the list, invalidate the payment
stats of the subscription. -/
def useCancelSubscriptionOnSuccess (data : Subscription)
    (clientId subscriptionId : String) (c : Cache) : Cache :=
  invalidateQueries (paymentStatsKey subscriptionId)
    (setQueryData (subscriptionKeysList clientId) (cancelListUpdater subscriptionId data)
      (invalidateQueries (subscriptionKeysActive clientId)
        (invalidateQueries (subscriptionKeysList clientId)
          (setQueryData (subscriptionKeysDetail subscriptionId)
            (fun _ => some (CacheData.sub data)) c))))

/-! ### Concrete sample data used by witnesses -/

/-- A `parseFloat` instance that fails on every string. -/
def pfNone : String → Option ℚ := fun _ => none

/-- A sample pending reward carrying a numeric 20% discount. -/
def rewardW : Reward :=
  { id := "r1", status := RewardStatus.pending, expires_at := none,
    discount_percentage := JSNumStr.num (some 20) }

/-- A sample applied reward. -/
def rewardAppliedW : Reward :=
  { id := "r2", status := RewardStatus.applied, expires_at := none,
    discount_percentage := JSNumStr.num (some 20) }

/-- Modal state with a selected reward, idle. -/
def stW : ModalState :=
  { isSubmitting := false, error := none, selectedReward := some rewardW, isOpen := true }

/-- Modal state while a renewal mutation is in flight. -/
def stSubmittingW : ModalState :=
  { isSubmitting := true, error := none, selectedReward := some rewardW, isOpen := true }

/-- A sample expired subscription. -/
def subW : Subscription :=
  { id := "s1", client_id := "c1", status := SubscriptionStatus.expired,
    start_date := "2024-01-01", end_date := "2024-01-31", final_price := none }

/-- A sample date parser fixing a January 2024 cycle (timestamps in ms). -/
def parseW : String → Option ℤ := fun s =>
  if s = "2024-01-01T00:00:00" then some 0
  else if s = "2023-12-31T23:59:59" then some (-1000)
  else if s = "2024-01-01" then some 0
  else if s = "2024-01-31" then some 2592000000
  else none

/-- The default reward configuration (threshold 20, month plans). -/
def configW : RewardConfig :=
  { attendance_threshold := 20, discount_percentage := 20, expiration_days := 7,
    eligible_plan_units := ["month"] }

/-- A days-remaining policy refusing renewal. -/
def policyW : Subscription → RenewalCheck :=
  fun _ => { canRenew := false, daysRemaining := 10, message := some "too early" }

/-- A renewal check that allows renewal. -/
def checkOkW : RenewalCheck := { canRenew := true, daysRemaining := 0, message := none }

/-- A subscription slice on an eligible month plan. -/
def subInfoW : SubscriptionInfo :=
  { start_date := "2024-01-01", end_date := "2024-01-31",
    plan := some { duration_unit := some "month" } }

/-- An empty query cache. -/
def cacheW : Cache := fun _ => { data := none, invalidated := false }

/-! ### Theorems -/

/-- C10: for every original price and every discount given as number or
string, the discounted price and the discount amount sum back to the
original price; a NaN number or an unparsable string acts as a discount of
0, leaving the price unchanged and the amount at 0. -/
theorem c10_discount_complement (pf : String → Option ℚ) (p : ℚ) (d : JSNumStr) :
    calculateDiscountedPrice pf p d + calculateDiscountAmount pf p d = p
    ∧ (d = JSNumStr.num none →
        calculateDiscountedPrice pf p d = p ∧ calculateDiscountAmount pf p d = 0)
    ∧ (∀ s, d = JSNumStr.str s → pf s = none →
        calculateDiscountedPrice pf p d = p ∧ calculateDiscountAmount pf p d = 0) := by
  refine ⟨?_, ?_, ?_⟩
  · simp only [calculateDiscountedPrice, calculateDiscountAmount, toNumber]
    ring
  · rintro rfl
    constructor <;> simp [calculateDiscountedPrice, calculateDiscountAmount, toNumber]
  · rintro s rfl hs
    constructor <;> simp [calculateDiscountedPrice, calculateDiscountAmount, toNumber, hs]

/-- C10 witness: price 50 with the unparsable string discount "abc". -/
theorem c10_discount_complement_witness :
    calculateDiscountedPrice pfNone 50 (JSNumStr.str "abc") = 50
    ∧ calculateDiscountAmount pfNone 50 (JSNumStr.str "abc") = 0 :=
  (c10_discount_complement pfNone 50 (JSNumStr.str "abc")).2.2 "abc" rfl rfl

/-- C4: the renewal-eligibility check yields renewable for an expired
subscription, delegates to the days-remaining policy for an active one,
refuses every other status, and a failed check disables the confirm
control. -/
theorem c4_renewal_eligibility_gating (policy : Subscription → RenewalCheck)
    (s : Subscription) :
    (s.status = SubscriptionStatus.expired →
      renewalCheck policy (some s)
        = { canRenew := true, daysRemaining := 0, message := none })
    ∧ (s.status = SubscriptionStatus.active → renewalCheck policy (some s) = policy s)
    ∧ ((s.status = SubscriptionStatus.canceled ∨ s.status = SubscriptionStatus.pending_payment
          ∨ s.status = SubscriptionStatus.scheduled) →
        (renewalCheck policy (some s)).canRenew = false)
    ∧ (∀ isSubmitting isLoading check, check.canRenew = false →
        confirmDisabled isSubmitting isLoading check = true) := by
  refine ⟨?_, ?_, ?_, ?_⟩
  · intro h
    simp [renewalCheck, h]
  · intro h
    simp [renewalCheck, h]
  · rintro (h | h | h) <;> simp [renewalCheck, h]
  · intro isSubmitting isLoading check h
    simp [confirmDisabled, h]

/-- C4 witness: an expired subscription is renewable; a refused check
disables the confirm button. -/
theorem c4_renewal_eligibility_gating_witness :
    renewalCheck policyW (some subW)
      = { canRenew := true, daysRemaining := 0, message := none }
    ∧ confirmDisabled false false { canRenew := false, daysRemaining := 0, message := none }
      = true :=
  ⟨(c4_renewal_eligibility_gating policyW subW).1 rfl,
   (c4_renewal_eligibility_gating policyW subW).2.2.2 false false
     { canRenew := false, daysRemaining := 0, message := none } rfl⟩

/-- C7: a plan duration unit outside `eligible_plan_units` is excluded:
the eligibility helper answers false, the progress evaluator yields no
progress signal regardless of the attendance list, and the
renewal-calculation gate refuses regardless of the attendance count. -/
theorem c7_plan_unit_exclusion (u : String) (config : RewardConfig)
    (hmem : u ∉ config.eligible_plan_units) :
    isPlanEligibleForRewards u (some config) = false
    ∧ (∀ parse act atts,
        rewardProgress parse act (some { duration_unit := u }) atts config = none)
    ∧ (∀ sub count, sub.plan = some { duration_unit := some u } →
        canCalculateRewardForRenewal (some sub) count (some config) = false) := by
  have hElig : isPlanEligibleForRewards u (some config) = false := by
    simp only [isPlanEligibleForRewards]
    simpa using hmem
  refine ⟨hElig, ?_, ?_⟩
  · intro parse act atts
    cases act with
    | none => rfl
    | some a =>
      cases h : atts.isEmpty <;> simp [rewardProgress, hElig, h]
  · intro sub count hplan
    cases h : (u == "") <;>
      simp [canCalculateRewardForRenewal, hplan, hElig, h]

/-- C7 witness: unit "week" against eligible units ["month"], at a
nonempty attendance list and a large count. -/
theorem c7_plan_unit_exclusion_witness :
    isPlanEligibleForRewards "week" (some configW) = false
    ∧ rewardProgress parseW
        (some { id := "s1", start_date := "2024-01-01", end_date := "2024-01-31",
                plan_id := "p1" })
        (some { duration_unit := "week" })
        [{ check_in := "2024-01-01" }] configW = none
    ∧ canCalculateRewardForRenewal
        (some { start_date := "2024-01-01", end_date := "2024-01-31",
                plan := some { duration_unit := some "week" } })
        100 (some configW) = false :=
  ⟨(c7_plan_unit_exclusion "week" configW (by decide)).1,
   (c7_plan_unit_exclusion "week" configW (by decide)).2.1 parseW
     (some { id := "s1", start_date := "2024-01-01", end_date := "2024-01-31",
             plan_id := "p1" })
     [{ check_in := "2024-01-01" }],
   (c7_plan_unit_exclusion "week" configW (by decide)).2.2
     { start_date := "2024-01-01", end_date := "2024-01-31",
       plan := some { duration_unit := some "week" } } 100 rfl⟩

/-- C6: the cycle attendance count is exactly the number of records whose
parsed `check_in` lies in the closed interval between the parsed cycle
bounds; both endpoints count, strictly outside does not. -/
theorem c6_closed_interval_attendance (parse : String → Option ℤ)
    (attendances : List AttendanceRecord) (startDate endDate : String) :
    (calculateCycleAttendances parse attendances startDate endDate
      = (attendances.filter (inCycleAttendance parse startDate endDate)).length)
    ∧ (∀ att ts te tc, parse startDate = some ts → parse endDate = some te →
        parse att.check_in = some tc →
        ((inCycleAttendance parse startDate endDate att = true ↔ ts ≤ tc ∧ tc ≤ te)
         ∧ (ts ≤ te → (tc = ts ∨ tc = te) → inCycleAttendance parse startDate endDate att = true)
         ∧ (tc < ts ∨ te < tc → inCycleAttendance parse startDate endDate att = false))) := by
  refine ⟨?_, ?_⟩
  · by_cases h : attendances.isEmpty
    · have hnil : attendances = [] := by simpa using h
      subst hnil
      simp [calculateCycleAttendances]
    · simp [calculateCycleAttendances, h]
  · intro att ts te tc h1 h2 h3
    have hiff : inCycleAttendance parse startDate endDate att = true ↔ ts ≤ tc ∧ tc ≤ te := by
      simp [inCycleAttendance, jsLe, h1, h2, h3]
    refine ⟨hiff, ?_, ?_⟩
    · rintro hle (rfl | rfl)
      · exact hiff.mpr ⟨le_refl _, hle⟩
      · exact hiff.mpr ⟨hle, le_refl _⟩
    · intro hout
      cases hval : inCycleAttendance parse startDate endDate att with
      | false => rfl
      | true =>
        obtain ⟨hl, hr⟩ := hiff.mp hval
        rcases hout with h | h <;> omega

/-- C6 witness: cycle [2024-01-01, 2024-01-31]; a check-in exactly at the
start bound counts. -/
theorem c6_closed_interval_attendance_witness :
    inCycleAttendance parseW "2024-01-01" "2024-01-31"
      { check_in := "2024-01-01T00:00:00" } = true ↔ (0 : ℤ) ≤ 0 ∧ (0 : ℤ) ≤ 2592000000 :=
  ((c6_closed_interval_attendance parseW [] "2024-01-01" "2024-01-31").2
    { check_in := "2024-01-01T00:00:00" } 0 2592000000 0 rfl rfl rfl).1

/-- C5: with an eligible plan, reward calculation is allowed exactly when
the attendance count reaches the threshold (compared exactly on ℚ): count
equal to the threshold qualifies, one below does not; and every progress
signal carries `remaining = max 0 (threshold - count)` and completion
exactly at the threshold. -/
theorem c5_threshold_comparison (count threshold : ℚ) (config : RewardConfig)
    (hthr : config.attendance_threshold = threshold)
    (u : String) (hu : u ≠ "") (hmem : u ∈ config.eligible_plan_units)
    (sub : SubscriptionInfo) (hplan : sub.plan = some { duration_unit := some u }) :
    (canCalculateRewardForRenewal (some sub) count (some config)
      = decide (threshold ≤ count))
    ∧ (count = threshold →
        canCalculateRewardForRenewal (some sub) count (some config) = true)
    ∧ (count = threshold - 1 →
        canCalculateRewardForRenewal (some sub) count (some config) = false)
    ∧ (∀ parse act plan atts p,
        rewardProgress parse act plan atts config = some p →
        p.remaining = max 0 (threshold - (p.cycleAttendances : ℚ))
        ∧ p.isComplete = decide (threshold ≤ (p.cycleAttendances : ℚ))) := by
  have hElig : isPlanEligibleForRewards u (some config) = true := by
    simp only [isPlanEligibleForRewards]
    simpa using hmem
  have hne : (u == "") = false := by
    simpa using hu
  have hmain : canCalculateRewardForRenewal (some sub) count (some config)
      = decide (threshold ≤ count) := by
    simp [canCalculateRewardForRenewal, hplan, hne, hElig, hthr]
  refine ⟨hmain, ?_, ?_, ?_⟩
  · rintro rfl
    simp [hmain]
  · rintro rfl
    rw [hmain]
    simp only [decide_eq_false_iff_not, not_le]
    linarith
  · intro parse act plan atts p hp
    cases act with
    | none => simp [rewardProgress] at hp
    | some a =>
      cases plan with
      | none => simp [rewardProgress] at hp
      | some pl =>
        by_cases hemp : atts.isEmpty
        · simp [rewardProgress, hemp] at hp
        · by_cases hel : isPlanEligibleForRewards pl.duration_unit (some config) = true
          · rw [rewardProgress] at hp
            simp only [hemp, hel, Bool.not_true, if_false, Bool.false_eq_true,
              Option.some.injEq] at hp
            subst hp
            exact ⟨by simp [hthr], by simp [hthr]⟩
          · rw [rewardProgress] at hp
            simp [hemp, Bool.not_eq_true] at hel
            simp [hemp, hel] at hp

/-- C5 witness: threshold 20 on a month plan; a count of exactly 20
qualifies, a count of 19 does not. -/
theorem c5_threshold_comparison_witness :
    canCalculateRewardForRenewal (some subInfoW) 20 (some configW) = true
    ∧ canCalculateRewardForRenewal (some subInfoW) 19 (some configW) = false :=
  ⟨(c5_threshold_comparison 20 20 configW rfl "month" (by decide) (by decide)
      subInfoW rfl).2.1 rfl,
   (c5_threshold_comparison 19 20 configW rfl "month" (by decide) (by decide)
      subInfoW rfl).2.2.1 (by norm_num)⟩

/-- The non-loading, non-error branch of `rewardStatusView`, written out. -/
theorem rewardStatusView_of_fetched (parse : String → Option ℤ) (now : ℤ)
    (rs : List Reward) (lastCalc : Option RewardEligibilityResponse) :
    rewardStatusView parse now false false (some rs) lastCalc
      = match filterAvailableRewards parse now rs with
        | reward :: _ => RewardStatusView.calculated reward
        | [] =>
          if (rs.filter (fun r => r.status == RewardStatus.applied)).length > 0 then
            RewardStatusView.applied
          else
            match lastCalc with
            | some res =>
              if !res.eligible then RewardStatusView.notEligible res.attendance_count
              else RewardStatusView.notCalculated
            | none => RewardStatusView.notCalculated := rfl

/-- C3: the derived reward state follows the precedence Calculated (some
pending, unexpired reward) > Applied (some applied reward) > NotEligible
(last local result ineligible) > NotCalculated; a list holding only an
applied reward derives Applied whatever the last local result says. -/
theorem c3_reward_state_precedence (parse : String → Option ℤ) (now : ℤ)
    (rs : List Reward) (lastCalc : Option RewardEligibilityResponse) :
    ((∃ r ∈ rs, isRewardAvailable parse now r = true) →
      ∃ r ∈ rs, isRewardAvailable parse now r = true
        ∧ rewardStatusView parse now false false (some rs) lastCalc
            = RewardStatusView.calculated r)
    ∧ ((∀ r ∈ rs, isRewardAvailable parse now r = false) →
        (∃ r ∈ rs, r.status = RewardStatus.applied) →
        rewardStatusView parse now false false (some rs) lastCalc
          = RewardStatusView.applied)
    ∧ ((∀ r ∈ rs, isRewardAvailable parse now r = false) →
        (∀ r ∈ rs, r.status ≠ RewardStatus.applied) →
        ∀ res, lastCalc = some res → res.eligible = false →
        rewardStatusView parse now false false (some rs) lastCalc
          = RewardStatusView.notEligible res.attendance_count)
    ∧ ((∀ r ∈ rs, isRewardAvailable parse now r = false) →
        (∀ r ∈ rs, r.status ≠ RewardStatus.applied) →
        (∀ res, lastCalc = some res → res.eligible = true) →
        rewardStatusView parse now false false (some rs) lastCalc
          = RewardStatusView.notCalculated)
    ∧ (∀ r, r.status = RewardStatus.applied →
        rewardStatusView parse now false false (some [r]) lastCalc
          = RewardStatusView.applied) := by
  refine ⟨?_, ?_, ?_, ?_, ?_⟩
  · rintro ⟨r, hr, ha⟩
    cases hfil : filterAvailableRewards parse now rs with
    | nil =>
      exact absurd ha (List.filter_eq_nil_iff.mp hfil r hr)
    | cons r0 t =>
      have hmem0 : r0 ∈ filterAvailableRewards parse now rs := by
        rw [hfil]
        exact List.mem_cons_self r0 t
      have h0 := List.mem_filter.mp hmem0
      refine ⟨r0, h0.1, h0.2, ?_⟩
      rw [rewardStatusView_of_fetched, hfil]
  · intro hnone ⟨r, hr, hst⟩
    have hfil : filterAvailableRewards parse now rs = [] :=
      List.filter_eq_nil_iff.mpr fun a ha => by simp [hnone a ha]
    have hap : r ∈ rs.filter (fun r => r.status == RewardStatus.applied) :=
      List.mem_filter.mpr ⟨hr, by simp [hst]⟩
    have hlen : (rs.filter (fun r => r.status == RewardStatus.applied)).length > 0 :=
      List.length_pos.mpr (List.ne_nil_of_mem hap)
    rw [rewardStatusView_of_fetched, hfil]
    simp [hlen]
  · intro hnone hnap res hres helig
    have hfil : filterAvailableRewards parse now rs = [] :=
      List.filter_eq_nil_iff.mpr fun a ha => by simp [hnone a ha]
    have hapnil : rs.filter (fun r => r.status == RewardStatus.applied) = [] :=
      List.filter_eq_nil_iff.mpr fun a ha => by simp [hnap a ha]
    rw [rewardStatusView_of_fetched, hfil]
    simp [hapnil, hres, helig]
  · intro hnone hnap hres
    have hfil : filterAvailableRewards parse now rs = [] :=
      List.filter_eq_nil_iff.mpr fun a ha => by simp [hnone a ha]
    have hapnil : rs.filter (fun r => r.status == RewardStatus.applied) = [] :=
      List.filter_eq_nil_iff.mpr fun a ha => by simp [hnap a ha]
    rw [rewardStatusView_of_fetched, hfil]
    cases lastCalc with
    | none => simp [hapnil]
    | some res => simp [hapnil, hres res rfl]
  · intro r hst
    have hfil : filterAvailableRewards parse now [r] = [] := by
      simp [filterAvailableRewards, isRewardAvailable, hst]
    rw [rewardStatusView_of_fetched, hfil]
    simp [hst]

/-- C3 witness: a list holding one applied reward derives Applied even
though the last local calculation reported eligible. -/
theorem c3_reward_state_precedence_witness :
    rewardStatusView parseW 0 false false (some [rewardAppliedW])
      (some { eligible := true, attendance_count := 25 })
      = RewardStatusView.applied :=
  (c3_reward_state_precedence parseW 0 [rewardAppliedW]
    (some { eligible := true, attendance_count := 25 })).2.2.2.2 rewardAppliedW rfl

/-- C2: whenever the confirm flow issues an apply-reward call, a reward was
selected, the renewal call had already resolved to a non-empty subscription
id (the one the apply call binds to), the selected reward's discount parsed
to a number (the one the apply call carries), and the trace starts with the
renewal call — so apply-reward never precedes the renewal's resolution and
is skipped whenever any of the three conditions fails. -/
theorem c2_apply_reward_only_after_renewal (pf : String → Option ℚ)
    (renewResult : Except String (Option String)) (applyResult : Except String Unit)
    (subscription : Option Subscription) (st : ModalState)
    (rid sid : String) (dp : ℚ)
    (hmem : Event.applyRewardCall rid sid dp
      ∈ (handleConfirm pf renewResult applyResult subscription st).2) :
    st.selectedReward.isSome = true
    ∧ renewResult = Except.ok (some sid) ∧ sid ≠ ""
    ∧ resolveDiscount pf st.selectedReward = some dp
    ∧ (handleConfirm pf renewResult applyResult subscription st).2.head?
        = some (Event.renewCall (resolveDiscount pf st.selectedReward)) := by
  cases subscription with
  | none => simp [handleConfirm] at hmem
  | some sub =>
    cases renewResult with
    | error msg => simp [handleConfirm] at hmem
    | ok nid =>
      by_cases hc : (st.selectedReward.isSome && truthyId nid
          && (resolveDiscount pf st.selectedReward).isSome) = true
      · have hc3 := hc
        simp only [Bool.and_eq_true] at hc3
        obtain ⟨⟨h1, h2⟩, h3⟩ := hc3
        obtain ⟨s, rfl⟩ : ∃ s, nid = some s := by
          cases nid with
          | none => simp [truthyId] at h2
          | some s => exact ⟨s, rfl⟩
        have hs : s ≠ "" := by simpa [truthyId] using h2
        obtain ⟨x, hx⟩ := Option.isSome_iff_exists.mp h3
        cases applyResult with
        | ok u =>
          simp only [handleConfirm, hc, if_true] at hmem ⊢
          simp only [List.mem_cons, List.not_mem_nil, or_false] at hmem
          rcases hmem with h | h
          · exact absurd h (by simp)
          · obtain ⟨hrid, hsid, hdp⟩ := by
              simpa using h
            subst hsid
            refine ⟨h1, by simp [Option.getD], hs, ?_, rfl⟩
            rw [hx] at hdp ⊢
            simp [Option.getD] at hdp
            simp [hdp]
        | error emsg =>
          simp only [handleConfirm, hc, if_true] at hmem ⊢
          simp only [List.mem_cons, List.not_mem_nil, or_false] at hmem
          rcases hmem with h | h | h
          · exact absurd h (by simp)
          · obtain ⟨hrid, hsid, hdp⟩ := by
              simpa using h
            subst hsid
            refine ⟨h1, by simp [Option.getD], hs, ?_, rfl⟩
            rw [hx] at hdp ⊢
            simp [Option.getD] at hdp
            simp [hdp]
          · exact absurd h (by simp)
      · simp only [handleConfirm, hc, if_false, Bool.false_eq_true] at hmem
        simp at hmem

/-- C2 witness: with a selected 20% reward and a renewal resolving to id
"sub-2", the issued apply call satisfies the stated conditions. -/
theorem c2_apply_reward_only_after_renewal_witness :
    stW.selectedReward.isSome = true
    ∧ (Except.ok (some "sub-2") : Except String (Option String))
        = Except.ok (some "sub-2")
    ∧ ("sub-2" : String) ≠ ""
    ∧ resolveDiscount pfNone stW.selectedReward = some 20
    ∧ (handleConfirm pfNone (Except.ok (some "sub-2")) (Except.ok ())
        (some subW) stW).2.head?
        = some (Event.renewCall (resolveDiscount pfNone stW.selectedReward)) :=
  c2_apply_reward_only_after_renewal pfNone (Except.ok (some "sub-2")) (Except.ok ())
    (some subW) stW "r1" "sub-2" 20 (by decide)

/-- C9: while a renewal mutation is in flight (`isSubmitting`), the confirm
control is disabled and a click is a no-op — the state is unchanged and no
renewal call is issued. -/
theorem c9_submission_guard (pf : String → Option ℚ)
    (renewResult : Except String (Option String)) (applyResult : Except String Unit)
    (isLoading : Bool) (check : RenewalCheck)
    (subscription : Option Subscription) (st : ModalState)
    (h : st.isSubmitting = true) :
    confirmDisabled st.isSubmitting isLoading check = true
    ∧ clickConfirm pf renewResult applyResult isLoading check subscription st = (st, [])
    ∧ ∀ d, Event.renewCall d
        ∉ (clickConfirm pf renewResult applyResult isLoading check subscription st).2 := by
  have hd : confirmDisabled st.isSubmitting isLoading check = true := by
    simp [confirmDisabled, h]
  refine ⟨hd, by simp [clickConfirm, hd], ?_⟩
  intro d
  simp [clickConfirm, hd]

/-- C9 witness: a click while submitting leaves the state untouched and
issues nothing. -/
theorem c9_submission_guard_witness :
    confirmDisabled stSubmittingW.isSubmitting false checkOkW = true
    ∧ clickConfirm pfNone (Except.ok (some "sub-2")) (Except.ok ()) false checkOkW
        (some subW) stSubmittingW = (stSubmittingW, []) :=
  ⟨(c9_submission_guard pfNone (Except.ok (some "sub-2")) (Except.ok ()) false checkOkW
      (some subW) stSubmittingW rfl).1,
   (c9_submission_guard pfNone (Except.ok (some "sub-2")) (Except.ok ()) false checkOkW
      (some subW) stSubmittingW rfl).2.1⟩

/-- C1 (code evaluation at the failing input): renewal succeeds with id
"sub-2" and the apply-reward call throws. The renewal call is issued
exactly once (no retry) and nothing is rolled back — the apply attempt and
the error log are the only further events — but the final state has
`error = none` and the modal closed: `handleClose` runs right after the
warning is set, wiping it, so no distinct warning remains visible, contrary
to the claim and to the code's own "Show a warning" comment. -/
theorem c1_renewal_partial_failure_eval :
    (handleConfirm pfNone (Except.ok (some "sub-2")) (Except.error "Network error")
        (some subW) stW).1.error = none
    ∧ (handleConfirm pfNone (Except.ok (some "sub-2")) (Except.error "Network error")
        (some subW) stW).1.isOpen = false
    ∧ (handleConfirm pfNone (Except.ok (some "sub-2")) (Except.error "Network error")
        (some subW) stW).1.isSubmitting = false
    ∧ (handleConfirm pfNone (Except.ok (some "sub-2")) (Except.error "Network error")
        (some subW) stW).2
      = [Event.renewCall (some 20), Event.applyRewardCall "r1" "sub-2" 20,
         Event.logError "Network error"] := by
  refine ⟨rfl, rfl, rfl, ?_⟩
  decide

/-- Reading a slot just written by `setQueryData`. -/
theorem setQueryData_read_same (key : List String)
    (f : Option CacheData → Option CacheData) (c : Cache) :
    setQueryData key f c key = { data := f (c key).data, invalidated := (c key).invalidated } := by
  simp [setQueryData]

/-- Reading any other slot after `setQueryData` is unchanged. -/
theorem setQueryData_read_ne (key : List String)
    (f : Option CacheData → Option CacheData) (c : Cache) (q : List String)
    (h : q ≠ key) : setQueryData key f c q = c q := by
  simp [setQueryData, h]

/-- Writing data with `setQueryData` never touches an invalidation mark. -/
theorem setQueryData_read_invalidated (key : List String)
    (f : Option CacheData → Option CacheData) (c : Cache) (q : List String) :
    (setQueryData key f c q).invalidated = (c q).invalidated := by
  simp only [setQueryData]
  split <;> rfl

/-- Invalidation never touches data. -/
theorem invalidateQueries_read_data (key : List String) (c : Cache) (q : List String) :
    (invalidateQueries key c q).data = (c q).data := by
  simp only [invalidateQueries]
  split <;> rfl

/-- Invalidation marks every slot the key is a prefix of. -/
theorem invalidateQueries_read_pos (key : List String) (c : Cache) (q : List String)
    (h : key <+: q) :
    invalidateQueries key c q = { data := (c q).data, invalidated := true } := by
  simp only [invalidateQueries]
  rw [if_pos (List.isPrefixOf_iff_prefix.mpr h)]

/-- Invalidation leaves non-matching slots alone. -/
theorem invalidateQueries_read_neg (key : List String) (c : Cache) (q : List String)
    (h : ¬ key <+: q) : invalidateQueries key c q = c q := by
  simp only [invalidateQueries]
  rw [if_neg (fun hb => h (List.isPrefixOf_iff_prefix.mp hb))]

/-- The detail key of a subscription never coincides with a client's list
key. -/
theorem detail_ne_list_key (a b : String) :
    subscriptionKeysDetail a ≠ subscriptionKeysList b := by
  simp [subscriptionKeysDetail, subscriptionKeysDetails, subscriptionKeysAll,
    subscriptionKeysList, subscriptionKeysLists]

/-- A payment-stats key never prefixes a subscriptions-domain key. -/
theorem pay_key_not_prefixes_subs (a : String) (rest : List String) :
    ¬ paymentStatsKey a <+: "subscriptions" :: rest := by
  rintro ⟨t, ht⟩
  simp [paymentStatsKey] at ht

/-- A list key never prefixes a detail key. -/
theorem list_key_not_prefixes_detail (a b : String) :
    ¬ subscriptionKeysList a <+: subscriptionKeysDetail b := by
  rintro ⟨t, ht⟩
  simp [subscriptionKeysList, subscriptionKeysLists, subscriptionKeysAll,
    subscriptionKeysDetail, subscriptionKeysDetails] at ht

/-- An active key never prefixes a list key (it is longer). -/
theorem active_key_not_prefixes_list (a b : String) :
    ¬ subscriptionKeysActive a <+: subscriptionKeysList b := by
  rintro ⟨t, ht⟩
  simp [subscriptionKeysActive, subscriptionKeysList, subscriptionKeysLists,
    subscriptionKeysAll] at ht

/-- A client's list key prefixes the matching active key. -/
theorem list_key_prefixes_active (a : String) :
    subscriptionKeysList a <+: subscriptionKeysActive a :=
  ⟨["active"], rfl⟩

/-- C8: after a successful cancel mutation, the detail entry holds the
returned record; the client's list is invalidated and its matching entry
replaced; the client's active slot is invalidated; the payment stats of the
subscription are invalidated; and every cache slot outside these keys is
untouched. -/
theorem c8_cancel_cache_effects (c : Cache) (data : Subscription)
    (clientId subscriptionId : String) :
    ((useCancelSubscriptionOnSuccess data clientId subscriptionId c
        (subscriptionKeysDetail subscriptionId)).data = some (CacheData.sub data))
    ∧ ((useCancelSubscriptionOnSuccess data clientId subscriptionId c
        (subscriptionKeysList clientId)).invalidated = true)
    ∧ (∀ old, (c (subscriptionKeysList clientId)).data = some (CacheData.subList old) →
        (useCancelSubscriptionOnSuccess data clientId subscriptionId c
          (subscriptionKeysList clientId)).data
          = some (CacheData.subList
              (old.map fun s => if s.id == subscriptionId then data else s)))
    ∧ ((useCancelSubscriptionOnSuccess data clientId subscriptionId c
        (subscriptionKeysActive clientId)).invalidated = true)
    ∧ ((useCancelSubscriptionOnSuccess data clientId subscriptionId c
        (paymentStatsKey subscriptionId)).invalidated = true)
    ∧ (∀ q, q ≠ subscriptionKeysDetail subscriptionId →
        ¬ subscriptionKeysList clientId <+: q →
        ¬ paymentStatsKey subscriptionId <+: q →
        useCancelSubscriptionOnSuccess data clientId subscriptionId c q = c q) := by
  refine ⟨?_, ?_, ?_, ?_, ?_, ?_⟩
  · simp only [useCancelSubscriptionOnSuccess]
    rw [invalidateQueries_read_data,
      setQueryData_read_ne _ _ _ _ (detail_ne_list_key subscriptionId clientId),
      invalidateQueries_read_data, invalidateQueries_read_data,
      setQueryData_read_same]
  · simp only [useCancelSubscriptionOnSuccess]
    rw [invalidateQueries_read_neg _ _ _
        (show ¬ paymentStatsKey subscriptionId <+: subscriptionKeysList clientId from
          pay_key_not_prefixes_subs subscriptionId ["list", clientId]),
      setQueryData_read_invalidated,
      invalidateQueries_read_neg _ _ _ (active_key_not_prefixes_list clientId clientId),
      invalidateQueries_read_pos _ _ _ (List.prefix_refl _)]
  · intro old hold
    simp only [useCancelSubscriptionOnSuccess]
    rw [invalidateQueries_read_data, setQueryData_read_same]
    simp only
    rw [invalidateQueries_read_data, invalidateQueries_read_data,
      setQueryData_read_ne _ _ _ _
        (fun h => detail_ne_list_key subscriptionId clientId h.symm),
      hold]
    rfl
  · simp only [useCancelSubscriptionOnSuccess]
    rw [invalidateQueries_read_neg _ _ _
        (show ¬ paymentStatsKey subscriptionId <+: subscriptionKeysActive clientId from
          pay_key_not_prefixes_subs subscriptionId ["list", clientId, "active"]),
      setQueryData_read_invalidated,
      invalidateQueries_read_pos _ _ _ (List.prefix_refl _)]
  · simp only [useCancelSubscriptionOnSuccess]
    rw [invalidateQueries_read_pos _ _ _ (List.prefix_refl _)]
  · intro q hqd hql hqp
    have hqa : ¬ subscriptionKeysActive clientId <+: q :=
      fun hp => hql ((list_key_prefixes_active clientId).trans hp)
    have hqlEq : q ≠ subscriptionKeysList clientId := by
      intro h
      exact hql (by rw [h])
    simp only [useCancelSubscriptionOnSuccess]
    rw [invalidateQueries_read_neg _ _ _ hqp,
      setQueryData_read_ne _ _ _ _ hqlEq,
      invalidateQueries_read_neg _ _ _ hqa,
      invalidateQueries_read_neg _ _ _ hql,
      setQueryData_read_ne _ _ _ _ hqd]

/-- C8 witness: on an empty cache, a slot outside the affected keys is
untouched by the cancel handler's cache effects. -/
theorem c8_cancel_cache_effects_witness :
    useCancelSubscriptionOnSuccess subW "c1" "s1" cacheW ["clients"]
      = cacheW ["clients"] :=
  (c8_cancel_cache_effects cacheW subW "c1" "s1").2.2.2.2.2 ["clients"]
    (by decide) (by decide) (by decide)

end PowerGym
